import Mathlib

/-!
Verification of the echo copy-trade bot against its design document.

The development shallowly embeds the core components of the bot:
the trade classifier (src/solana/analyzer.ts), the copy-trade
orchestrator (src/bot/executor.ts), the position monitor loop body
(src/index.ts) and the position store (src/bot/stateManager.ts).
JavaScript numbers appearing in control-flow comparisons are modelled
as exact rationals, bigint values as Lean integers, and JavaScript
Map objects as association lists with unique keys kept in insertion
order.  External collaborators (Jupiter HTTP API, the Solana RPC
client, the metadata resolver) are modelled as oracles supplied to
each pipeline run.
-/

namespace Echo

/-! ## JavaScript Map model

A JS `Map` keyed by strings is modelled as an association list.
`jsMapSet` matches `Map.set`: an existing key keeps its position and
gets the new value, a new key is appended.  `jsMapGet` matches
`Map.get`, `jsMapDelete` matches `Map.delete` (keys are unique in a
JS map, so removing every binding of the key is extensionally the
same as removing the single entry). -/

def jsMapSet {α : Type} (m : List (String × α)) (k : String) (v : α) :
    List (String × α) :=
  match m with
  | [] => [(k, v)]
  | (k', v') :: rest =>
      if k' = k then (k, v) :: rest else (k', v') :: jsMapSet rest k v

def jsMapGet {α : Type} (m : List (String × α)) (k : String) : Option α :=
  match m with
  | [] => none
  | (k', v') :: rest => if k' = k then some v' else jsMapGet rest k

def jsMapDelete {α : Type} (m : List (String × α)) (k : String) :
    List (String × α) :=
  m.filter (fun p => p.1 ≠ k)

theorem jsMapGet_set_self {α : Type} (m : List (String × α)) (k : String)
    (v : α) : jsMapGet (jsMapSet m k v) k = some v := by
  induction m with
  | nil => simp [jsMapSet, jsMapGet]
  | cons p rest ih =>
      by_cases h : p.1 = k
      · simp [jsMapSet, jsMapGet, h]
      · simp [jsMapSet, jsMapGet, h, ih]

theorem jsMapGet_set_ne {α : Type} (m : List (String × α)) (k k' : String)
    (v : α) (h : k ≠ k') :
    jsMapGet (jsMapSet m k v) k' = jsMapGet m k' := by
  induction m with
  | nil => simp [jsMapSet, jsMapGet, h]
  | cons p rest ih =>
      by_cases hp : p.1 = k
      · simp [jsMapSet, jsMapGet, hp, h]
      · simp [jsMapSet, jsMapGet, hp, ih]

theorem jsMapGet_delete_self {α : Type} (m : List (String × α))
    (k : String) : jsMapGet (jsMapDelete m k) k = none := by
  induction m with
  | nil => simp [jsMapDelete, jsMapGet]
  | cons p rest ih =>
      by_cases h : p.1 = k
      · simpa [jsMapDelete, h] using ih
      · simpa [jsMapDelete, jsMapGet, h] using ih

theorem jsMapGet_delete_ne {α : Type} (m : List (String × α))
    (k k' : String) (h : k ≠ k') :
    jsMapGet (jsMapDelete m k) k' = jsMapGet m k' := by
  induction m with
  | nil => simp [jsMapDelete, jsMapGet]
  | cons p rest ih =>
      by_cases hp : p.1 = k
      · simpa [jsMapDelete, jsMapGet, hp, h] using ih
      · by_cases hq : p.1 = k'
        · simp [jsMapDelete, List.filter_cons, jsMapGet, hp, hq, Ne.symm h]
        · simpa [jsMapDelete, jsMapGet, hp, hq] using ih

/-! ## Shared constants (src/config/index.ts) -/

def WSOL_MINT : String := "So11111111111111111111111111111111111111112"

def LAMPORTS_PER_SOL : ℚ := 1000000000

/-! ## Data model -/

/-- Token display metadata returned by the metadata resolver
(src/solana/tokenMetadata.ts, an external collaborator). -/
structure TokenInfo where
  symbol : String
  name : String
  decimals : ℕ
deriving DecidableEq

inductive TradeType
  | buy
  | sell
deriving DecidableEq

/-- One bot-held position (`BotHolding` in src/bot/stateManager.ts).
The executor and monitor additionally read the optional risk-managed
fields `avgPurchasePriceInSol`, `tokenDecimals` and
`totalSolSpentLamports`, so the in-memory record carries them as
optional fields; positions created outside risk-managed mode leave
them unset. -/
structure BotHolding where
  amountLamports : ℤ
  buyTxSignature : String
  monitoredWallet : String
  avgPurchasePriceInSol : Option ℚ
  tokenDecimals : Option ℕ
  totalSolSpentLamports : Option ℤ
deriving DecidableEq

/-- The in-memory holdings map of the position store. -/
abbrev HoldingsMap := List (String × BotHolding)

/-- `DetectedTrade` (src/types.ts), produced by `analyzeTrade` and
consumed by the executor. -/
structure DetectedTrade where
  type : TradeType
  tokenInfo : TokenInfo
  tokenMint : String
  currencyMint : String
  currencySymbol : String
  tokenAmount : ℚ
  currencyAmount : ℚ
  originalTxSignature : String
  monitoredWallet : String
deriving DecidableEq

/-! ## Trade classifier (src/solana/analyzer.ts, `analyzeTrade`) -/

/-- One entry of `preTokenBalances`/`postTokenBalances`; `uiAmount`
is `none` when the JSON field is null or missing. -/
structure TokenBalance where
  owner : String
  mint : String
  uiAmount : Option ℚ
deriving DecidableEq

/-- The slice of a `ParsedTransactionWithMeta` that `analyzeTrade`
reads.  A `none` field models a missing piece of metadata. -/
structure ParsedTx where
  signature : Option String
  preTokenBalances : Option (List TokenBalance)
  postTokenBalances : Option (List TokenBalance)
  preBalances : Option (List ℤ)
  postBalances : Option (List ℤ)
  accountKeys : Option (List String)
deriving DecidableEq

/-- Dust threshold for SOL/WSOL movement (`solThreshold = 0.00001`). -/
def solThreshold : ℚ := 1 / 100000

/-- Dust threshold for the per-token change (`0.000001`). -/
def tokenDustThreshold : ℚ := 1 / 1000000

/-- The basic validation at the top of `analyzeTrade`: every needed
piece of metadata must be present, otherwise the analysis returns
null. -/
def txHasRequiredMeta (tx : ParsedTx) : Bool :=
  tx.preTokenBalances.isSome && tx.postTokenBalances.isSome &&
  tx.preBalances.isSome && tx.postBalances.isSome &&
  tx.accountKeys.isSome && tx.signature.isSome

/-- `createBalanceMap`: keep only balances owned by the monitored
wallet whose `uiAmount` is present, keyed by mint (later entries
overwrite earlier ones, as with `Map.set`). -/
def tokenBalanceMap (wallet : String) (balances : List TokenBalance) :
    List (String × TokenBalance) :=
  balances.foldl
    (fun m b =>
      if b.owner = wallet ∧ b.uiAmount.isSome then jsMapSet m b.mint b
      else m)
    []

def preTokenMap (tx : ParsedTx) (wallet : String) :
    List (String × TokenBalance) :=
  tokenBalanceMap wallet (tx.preTokenBalances.getD [])

def postTokenMap (tx : ParsedTx) (wallet : String) :
    List (String × TokenBalance) :=
  tokenBalanceMap wallet (tx.postTokenBalances.getD [])

/-- `map.get(mint)?.uiTokenAmount.uiAmount ?? 0`. -/
def mapUiAmount (m : List (String × TokenBalance)) (mint : String) : ℚ :=
  match jsMapGet m mint with
  | some b => b.uiAmount.getD 0
  | none => 0

/-- Native lamport balance delta of the wallet account itself,
divided by `LAMPORTS_PER_SOL`; `0` when the wallet is not among the
account keys. -/
def nativeSolChange (tx : ParsedTx) (wallet : String) : ℚ :=
  match (tx.accountKeys.getD []).findIdx? (· = wallet) with
  | some i =>
      (((tx.postBalances.getD []).getD i 0 -
        (tx.preBalances.getD []).getD i 0 : ℤ) : ℚ) / LAMPORTS_PER_SOL
  | none => 0

/-- WSOL token-balance delta for the wallet. -/
def wsolTokenChange (tx : ParsedTx) (wallet : String) : ℚ :=
  mapUiAmount (postTokenMap tx wallet) WSOL_MINT -
  mapUiAmount (preTokenMap tx wallet) WSOL_MINT

/-- The SOL/WSOL delta the classifier settles on: the native delta
when its magnitude exceeds the dust threshold, else the WSOL delta. -/
def solChangeToUse (tx : ParsedTx) (wallet : String) : ℚ :=
  if |nativeSolChange tx wallet| > solThreshold then nativeSolChange tx wallet
  else wsolTokenChange tx wallet

/-- The label attached to the chosen delta. -/
def solSymbolToUse (tx : ParsedTx) (wallet : String) : String :=
  if |nativeSolChange tx wallet| > solThreshold then "SOL" else "WSOL"

/-- Net change of one token's balance for the wallet. -/
def tokenChange (tx : ParsedTx) (wallet mint : String) : ℚ :=
  mapUiAmount (postTokenMap tx wallet) mint -
  mapUiAmount (preTokenMap tx wallet) mint

/-- `new Set([...pre.keys(), ...post.keys()])` in insertion order. -/
def allMints (tx : ParsedTx) (wallet : String) : List String :=
  let pre := (preTokenMap tx wallet).map Prod.fst
  let post := (postTokenMap tx wallet).map Prod.fst
  pre ++ post.filter (fun m => ¬ m ∈ pre)

/-- The per-mint loop of `analyzeTrade`: skip WSOL, skip dust-level
changes, classify by the sign pairing of the token delta and the
chosen SOL/WSOL delta, return the first qualifying mint. -/
def findTradeLoop (meta : String → TokenInfo) (tx : ParsedTx)
    (wallet : String) (sol : ℚ) (symbol sig : String) :
    List String → Option DetectedTrade
  | [] => none
  | mint :: rest =>
      if mint = WSOL_MINT then findTradeLoop meta tx wallet sol symbol sig rest
      else
        let tc := tokenChange tx wallet mint
        if |tc| > tokenDustThreshold then
          if tc > 0 ∧ sol < -solThreshold then
            some
              { type := .buy
                tokenInfo := meta mint
                tokenMint := mint
                currencyMint := WSOL_MINT
                currencySymbol := symbol
                tokenAmount := |tc|
                currencyAmount := |sol|
                originalTxSignature := sig
                monitoredWallet := wallet }
          else if tc < 0 ∧ sol > solThreshold then
            some
              { type := .sell
                tokenInfo := meta mint
                tokenMint := mint
                currencyMint := WSOL_MINT
                currencySymbol := symbol
                tokenAmount := |tc|
                currencyAmount := |sol|
                originalTxSignature := sig
                monitoredWallet := wallet }
          else findTradeLoop meta tx wallet sol symbol sig rest
        else findTradeLoop meta tx wallet sol symbol sig rest

/-- `analyzeTrade(transaction, monitoredWalletPubKey, metadata)`.
The metadata resolver is an oracle from mint to `TokenInfo`. -/
def analyzeTrade (tx : ParsedTx) (wallet : String)
    (meta : String → TokenInfo) : Option DetectedTrade :=
  if txHasRequiredMeta tx then
    if |solChangeToUse tx wallet| < solThreshold then none
    else
      findTradeLoop meta tx wallet (solChangeToUse tx wallet)
        (solSymbolToUse tx wallet) (tx.signature.getD "")
        (allMints tx wallet)
  else none

/-! ## Copy-trade orchestrator (src/bot/executor.ts, `TradeExecutor`) -/

/-- The arguments of a `getJupiterQuote` call. -/
structure QuoteRequest where
  inputMint : String
  outputMint : String
  amount : ℤ
  slippageBps : ℕ
deriving DecidableEq

/-- The fields of a Jupiter quote response the executor reads; the
string amounts are converted with `BigInt` at the use sites. -/
structure QuoteResponse where
  inAmount : ℤ
  outAmount : ℤ
deriving DecidableEq

/-- Executor configuration captured at construction time. -/
structure ExecConfig where
  tradeAmountLamports : ℤ
  slippageBps : ℕ
  executeTrades : Bool
  manageWithSltp : Bool
deriving DecidableEq

/-- One pipeline run's view of its collaborators: the quote endpoint
as an oracle from request to optional response, and the outcomes of
the later stages.  `swapBuildOk` is false when `getJupiterSwap`
returns null or without a `swapTransaction` payload; `signOk` is
false when deserializing/signing throws; `execResult` is the result
of `executeRealTradeInternal` (a signature when submit and
confirmation both succeed, `none` when either throws or times out);
`simOk` is the result of `simulateTradeInternal`. -/
structure PipelineEnv where
  quoteOracle : QuoteRequest → Option QuoteResponse
  swapBuildOk : Bool
  signOk : Bool
  execResult : Option String
  simOk : Bool

/-- How a pipeline run ended. -/
inductive RunOutcome
  | quoteFailed
  | buildFailed
  | signFailed
  | execFailed
  | simFailed
  | committed (signature : String)
  | simulatedOk
  | ignoredNoHolding
  | ignoredSltpManaged
deriving DecidableEq

/-- The aborted outcomes: the run reported a failure. -/
def RunOutcome.isFailure : RunOutcome → Bool
  | quoteFailed => true
  | buildFailed => true
  | signFailed => true
  | execFailed => true
  | simFailed => true
  | _ => false

/-- A mutation requested on the position store. -/
inductive StoreOp
  | add (mint : String) (tokensReceived solSpent : ℤ)
      (signature wallet : String) (decimals : ℕ) (withSltp : Bool)
  | remove (mint : String)
deriving DecidableEq

/-- Average purchase price in SOL per whole token:
(total lamports spent / LAMPORTS_PER_SOL) divided by
(raw token amount / 10 ^ decimals). -/
def avgPriceInSol (totalSolSpent amountRaw : ℤ) (decimals : ℕ) : ℚ :=
  ((totalSolSpent : ℚ) / LAMPORTS_PER_SOL) /
    ((amountRaw : ℚ) / 10 ^ decimals)

/-- Modelled from the spec: the risk-managed
`StateManager.addOrUpdateHolding` the executor calls (seven
arguments, including the SOL cost, the token decimals and the
risk-managed flag) is not among the provided sources — the file
carries only the pre-risk-managed four-argument variant.  Per the
spec, a buy fill aggregates the raw amount, accumulates the total
base spent, and when risk-managed mode is on recomputes the average
entry price as a weighted average on every buy (never on a sell);
the optional fields are populated exactly when risk-managed mode is
enabled. -/
def addOrUpdateHolding (st : HoldingsMap) (mint : String)
    (tokensReceived solSpent : ℤ) (sig wallet : String)
    (decimals : ℕ) (withSltp : Bool) : HoldingsMap :=
  let prev := jsMapGet st mint
  let newAmount := (prev.map BotHolding.amountLamports).getD 0 + tokensReceived
  let newTotal :=
    (prev.bind BotHolding.totalSolSpentLamports).getD 0 + solSpent
  let h : BotHolding :=
    if withSltp then
      { amountLamports := newAmount
        buyTxSignature := sig
        monitoredWallet := wallet
        avgPurchasePriceInSol := some (avgPriceInSol newTotal newAmount decimals)
        tokenDecimals := some decimals
        totalSolSpentLamports := some newTotal }
    else
      { amountLamports := newAmount
        buyTxSignature := sig
        monitoredWallet := wallet
        avgPurchasePriceInSol := none
        tokenDecimals := none
        totalSolSpentLamports := none }
  jsMapSet st mint h

/-- `StateManager.removeHolding`. -/
def removeHolding (st : HoldingsMap) (mint : String) : HoldingsMap :=
  jsMapDelete st mint

def applyStoreOp (st : HoldingsMap) : StoreOp → HoldingsMap
  | .add mint tok sol sig w d s => addOrUpdateHolding st mint tok sol sig w d s
  | .remove mint => removeHolding st mint

/-- The result of one orchestrator entry point: the outcome, the
holdings map afterwards, the quote requests issued, and the store
mutations requested. -/
structure RunOut where
  outcome : RunOutcome
  holdings : HoldingsMap
  quoteReqs : List QuoteRequest
  storeOps : List StoreOp
deriving DecidableEq

/-- The quote request of `processBuyTrade`: always SOL/WSOL into the
detected token, sized at the bot's configured lamport amount. -/
def buyQuoteRequest (cfg : ExecConfig) (trade : DetectedTrade) :
    QuoteRequest :=
  { inputMint := WSOL_MINT
    outputMint := trade.tokenMint
    amount := cfg.tradeAmountLamports
    slippageBps := cfg.slippageBps }

/-- The quote request of the sell paths: the full held raw amount of
the token into WSOL. -/
def sellQuoteRequest (cfg : ExecConfig) (mint : String) (amount : ℤ) :
    QuoteRequest :=
  { inputMint := mint
    outputMint := WSOL_MINT
    amount := amount
    slippageBps := cfg.slippageBps }

/-- `TradeExecutor.processBuyTrade`. -/
def processBuyTrade (cfg : ExecConfig) (env : PipelineEnv)
    (st : HoldingsMap) (trade : DetectedTrade) : RunOut :=
  let req := buyQuoteRequest cfg trade
  match env.quoteOracle req with
  | none => ⟨.quoteFailed, st, [req], []⟩
  | some q =>
      if !env.swapBuildOk then ⟨.buildFailed, st, [req], []⟩
      else if !env.signOk then ⟨.signFailed, st, [req], []⟩
      else if cfg.executeTrades then
        match env.execResult with
        | some sig =>
            let op := StoreOp.add trade.tokenMint q.outAmount q.inAmount
              sig trade.monitoredWallet trade.tokenInfo.decimals
              cfg.manageWithSltp
            ⟨.committed sig, applyStoreOp st op, [req], [op]⟩
        | none => ⟨.execFailed, st, [req], []⟩
      else if env.simOk then ⟨.simulatedOk, st, [req], []⟩
      else ⟨.simFailed, st, [req], []⟩

/-- `TradeExecutor.processSellTrade` (copy-sell). -/
def processSellTrade (cfg : ExecConfig) (env : PipelineEnv)
    (st : HoldingsMap) (trade : DetectedTrade) : RunOut :=
  match jsMapGet st trade.tokenMint with
  | none => ⟨.ignoredNoHolding, st, [], []⟩
  | some holding =>
      if cfg.manageWithSltp && holding.avgPurchasePriceInSol.isSome then
        ⟨.ignoredSltpManaged, st, [], []⟩
      else
        let req := sellQuoteRequest cfg trade.tokenMint holding.amountLamports
        match env.quoteOracle req with
        | none => ⟨.quoteFailed, st, [req], []⟩
        | some _ =>
            if !env.swapBuildOk then ⟨.buildFailed, st, [req], []⟩
            else if !env.signOk then ⟨.signFailed, st, [req], []⟩
            else if cfg.executeTrades then
              match env.execResult with
              | some sig =>
                  ⟨.committed sig, removeHolding st trade.tokenMint, [req],
                    [.remove trade.tokenMint]⟩
              | none => ⟨.execFailed, st, [req], []⟩
            else if env.simOk then ⟨.simulatedOk, st, [req], []⟩
            else ⟨.simFailed, st, [req], []⟩

/-- `TradeExecutor.processTrade`: dispatch on the trade direction,
with the risk-managed copy-sell filter applied before
`processSellTrade`. -/
def processTrade (cfg : ExecConfig) (env : PipelineEnv)
    (st : HoldingsMap) (trade : DetectedTrade) : RunOut :=
  match trade.type with
  | .buy => processBuyTrade cfg env st trade
  | .sell =>
      if cfg.manageWithSltp then
        match jsMapGet st trade.tokenMint with
        | some h =>
            if h.avgPurchasePriceInSol.isSome && h.tokenDecimals.isSome then
              ⟨.ignoredSltpManaged, st, [], []⟩
            else processSellTrade cfg env st trade
        | none => processSellTrade cfg env st trade
      else processSellTrade cfg env st trade

inductive ExitReason
  | SL
  | TP
deriving DecidableEq

/-- `TradeExecutor.executeSlTpSell`: the risk-exit pipeline, selling
the full held amount of the passed holding. -/
def executeSlTpSell (cfg : ExecConfig) (env : PipelineEnv)
    (st : HoldingsMap) (mint : String) (holding : BotHolding)
    (_reason : ExitReason) : RunOut :=
  let req := sellQuoteRequest cfg mint holding.amountLamports
  match env.quoteOracle req with
  | none => ⟨.quoteFailed, st, [req], []⟩
  | some _ =>
      if !env.swapBuildOk then ⟨.buildFailed, st, [req], []⟩
      else if !env.signOk then ⟨.signFailed, st, [req], []⟩
      else if cfg.executeTrades then
        match env.execResult with
        | some sig =>
            ⟨.committed sig, removeHolding st mint, [req], [.remove mint]⟩
        | none => ⟨.execFailed, st, [req], []⟩
      else if env.simOk then ⟨.simulatedOk, st, [req], []⟩
      else ⟨.simFailed, st, [req], []⟩

/-- A stage of the pipeline behind the quote request `req` fails in
environment `env`: quote unavailable, build unavailable, signing
throws, real execution (submit/confirm) fails, or the dry-run
simulation fails. -/
def stageFailed (cfg : ExecConfig) (env : PipelineEnv)
    (req : QuoteRequest) : Bool :=
  (env.quoteOracle req).isNone || !env.swapBuildOk || !env.signOk ||
  (cfg.executeTrades && env.execResult.isNone) ||
  (!cfg.executeTrades && !env.simOk)

/-! ## Position monitor (src/index.ts, `priceMonitoringLoop` body) -/

structure SltpConfig where
  takeProfitPct : ℚ
  stopLossPct : ℚ
  slippageBps : ℕ
deriving DecidableEq

/-- What the loop body decides for one holding in one tick. -/
inductive PriceAction
  | skipped
  | noQuote
  | takeProfit
  | stopLoss
  | hold
deriving DecidableEq

/-- The valuation quote used by the monitor: sell the full held raw
amount into WSOL. -/
def monitorQuoteRequest (cfg : SltpConfig) (mint : String) (amount : ℤ) :
    QuoteRequest :=
  { inputMint := mint
    outputMint := WSOL_MINT
    amount := amount
    slippageBps := cfg.slippageBps }

/-- The body of `priceMonitoringLoop` for one holding: skip holdings
without entry price, decimals or a positive amount; quote the whole
position; derive the per-unit price; take-profit (`>=`) checked
before stop-loss (`<=`).  The quote oracle yields the `outAmount`
lamports of the valuation quote, `none` when the quote is
unavailable. -/
def priceCheckHolding (cfg : SltpConfig)
    (quoteOut : QuoteRequest → Option ℤ) (mint : String)
    (holding : BotHolding) : PriceAction :=
  match holding.avgPurchasePriceInSol, holding.tokenDecimals with
  | some avg, some dec =>
      if holding.amountLamports ≤ 0 then .skipped
      else
        match quoteOut (monitorQuoteRequest cfg mint holding.amountLamports) with
        | none => .noQuote
        | some outAmount =>
            let currentValueInSol : ℚ := (outAmount : ℚ) / LAMPORTS_PER_SOL
            let tokensHeld : ℚ := (holding.amountLamports : ℚ) / 10 ^ dec
            if tokensHeld ≤ 0 then .skipped
            else
              let price := currentValueInSol / tokensHeld
              if price ≥ avg * (1 + cfg.takeProfitPct / 100) then .takeProfit
              else if price ≤ avg * (1 - cfg.stopLossPct / 100) then .stopLoss
              else .hold
  | _, _ => .skipped

/-! ## Position store persistence (src/bot/stateManager.ts) -/

/-- The decimal-string serialization of a bigint: an optional minus
sign and the decimal digits (least significant first).  A malformed
JSON string is one carrying a non-digit entry (≥ 10). -/
structure IntString where
  neg : Bool
  digits : List ℕ
deriving DecidableEq

/-- `bigint.toString()`. -/
def intToDecimalString (n : ℤ) : IntString :=
  ⟨decide (n < 0), Nat.digits 10 n.natAbs⟩

/-- `BigInt(string)`: succeeds exactly when every entry is a decimal
digit, otherwise the conversion throws (modelled as `none`). -/
def parseBigInt (s : IntString) : Option ℤ :=
  if s.digits.all (fun d => d < 10) then
    some ((if s.neg then -1 else 1) * ((Nat.ofDigits 10 s.digits : ℕ) : ℤ))
  else none

/-- The on-disk shape of one holding (`BotHoldingJson`). -/
structure BotHoldingJson where
  amountLamports : IntString
  buyTxSignature : String
  monitoredWallet : String
deriving DecidableEq

/-- `StateManager.saveHoldings`: serialize every entry, converting
the bigint amount to a decimal string. -/
def saveHoldings (m : HoldingsMap) : List (String × BotHoldingJson) :=
  m.map (fun p =>
    (p.1,
      { amountLamports := intToDecimalString p.2.amountLamports
        buyTxSignature := p.2.buyTxSignature
        monitoredWallet := p.2.monitoredWallet }))

/-- The per-entry conversion in `StateManager.loadHoldings`: rebuild
the in-memory holding, failing when `BigInt` throws on the stored
amount. -/
def parseHoldingJson (hj : BotHoldingJson) : Option BotHolding :=
  (parseBigInt hj.amountLamports).map (fun a =>
    { amountLamports := a
      buyTxSignature := hj.buyTxSignature
      monitoredWallet := hj.monitoredWallet
      avgPurchasePriceInSol := none
      tokenDecimals := none
      totalSolSpentLamports := none })

/-- `StateManager.loadHoldings`: convert every entry, skipping (with
a warning) any entry whose conversion throws. -/
def loadHoldings (json : List (String × BotHoldingJson)) : HoldingsMap :=
  json.filterMap (fun p => (parseHoldingJson p.2).map (fun h => (p.1, h)))

/-! ## JS heap model for `getAllHoldings`

`StateManager.getAllHoldings` returns `new Map(this.holdings)`.  To
state that the returned object is a fresh copy (callers mutating it
cannot reach the manager's own map), JS `Map` objects are modelled
as heap cells: a heap is a list of maps, a reference is an index,
and allocation appends a new cell. -/

structure JsHeap where
  store : List HoldingsMap
deriving DecidableEq

def JsHeap.read (h : JsHeap) (r : ℕ) : HoldingsMap := h.store.getD r []

def JsHeap.write (h : JsHeap) (r : ℕ) (m : HoldingsMap) : JsHeap :=
  ⟨h.store.set r m⟩

def JsHeap.alloc (h : JsHeap) (m : HoldingsMap) : JsHeap × ℕ :=
  (⟨h.store ++ [m]⟩, h.store.length)

/-- `StateManager.getAllHoldings` with the manager's map living in
cell `mgr`: allocate a fresh map holding a copy of the current
entries and hand back its reference. -/
def getAllHoldings (h : JsHeap) (mgr : ℕ) : JsHeap × ℕ :=
  h.alloc (h.read mgr)

/-- A mutation a caller may apply to a `Map` it was handed. -/
inductive MapOp
  | set (k : String) (v : BotHolding)
  | del (k : String)
deriving DecidableEq

def applyMapOp (h : JsHeap) (r : ℕ) : MapOp → JsHeap
  | .set k v => h.write r (jsMapSet (h.read r) k v)
  | .del k => h.write r (jsMapDelete (h.read r) k)

def applyMapOps (h : JsHeap) (r : ℕ) (ops : List MapOp) : JsHeap :=
  ops.foldl (fun hh op => applyMapOp hh r op) h

/-! ## Helper lemmas about the orchestrator pipelines -/

theorem processBuyTrade_frame (cfg : ExecConfig) (env : PipelineEnv)
    (st : HoldingsMap) (trade : DetectedTrade) :
    (processBuyTrade cfg env st trade).outcome.isFailure = true →
    (processBuyTrade cfg env st trade).holdings = st ∧
    (processBuyTrade cfg env st trade).storeOps = [] := by
  obtain ⟨qo, sb, so, er, sim⟩ := env
  simp only [processBuyTrade]
  cases hq : qo (buyQuoteRequest cfg trade) <;>
    cases sb <;> cases so <;> cases hex : cfg.executeTrades <;>
    cases er <;> cases sim <;>
    simp [RunOutcome.isFailure, hq, hex]

theorem processBuyTrade_stageFailed (cfg : ExecConfig) (env : PipelineEnv)
    (st : HoldingsMap) (trade : DetectedTrade) :
    stageFailed cfg env (buyQuoteRequest cfg trade) = true →
    (processBuyTrade cfg env st trade).outcome.isFailure = true := by
  obtain ⟨qo, sb, so, er, sim⟩ := env
  simp only [processBuyTrade, stageFailed]
  cases hq : qo (buyQuoteRequest cfg trade) <;>
    cases sb <;> cases so <;> cases hex : cfg.executeTrades <;>
    cases er <;> cases sim <;>
    simp [RunOutcome.isFailure, hq, hex]

theorem processBuyTrade_sim (cfg : ExecConfig) (env : PipelineEnv)
    (st : HoldingsMap) (trade : DetectedTrade)
    (hex : cfg.executeTrades = false) :
    (processBuyTrade cfg env st trade).holdings = st ∧
    (processBuyTrade cfg env st trade).storeOps = [] ∧
    ∀ s, (processBuyTrade cfg env st trade).outcome ≠ .committed s := by
  obtain ⟨qo, sb, so, er, sim⟩ := env
  simp only [processBuyTrade]
  cases hq : qo (buyQuoteRequest cfg trade) <;>
    cases sb <;> cases so <;> cases er <;> cases sim <;>
    simp [hq, hex]

theorem processSellTrade_frame (cfg : ExecConfig) (env : PipelineEnv)
    (st : HoldingsMap) (trade : DetectedTrade) :
    (processSellTrade cfg env st trade).outcome.isFailure = true →
    (processSellTrade cfg env st trade).holdings = st ∧
    (processSellTrade cfg env st trade).storeOps = [] := by
  obtain ⟨qo, sb, so, er, sim⟩ := env
  simp only [processSellTrade]
  cases hh : jsMapGet st trade.tokenMint with
  | none => simp [RunOutcome.isFailure]
  | some holding =>
      cases hg : (cfg.manageWithSltp && holding.avgPurchasePriceInSol.isSome) <;>
        cases hq : qo (sellQuoteRequest cfg trade.tokenMint holding.amountLamports) <;>
        cases sb <;> cases so <;> cases hex : cfg.executeTrades <;>
        cases er <;> cases sim <;>
        simp [RunOutcome.isFailure, hq, hex, hg]

theorem processSellTrade_stageFailed (cfg : ExecConfig) (env : PipelineEnv)
    (st : HoldingsMap) (trade : DetectedTrade) (holding : BotHolding)
    (hh : jsMapGet st trade.tokenMint = some holding)
    (hg : (cfg.manageWithSltp && holding.avgPurchasePriceInSol.isSome) = false)
    (hf : stageFailed cfg env
      (sellQuoteRequest cfg trade.tokenMint holding.amountLamports) = true) :
    (processSellTrade cfg env st trade).outcome.isFailure = true := by
  obtain ⟨qo, sb, so, er, sim⟩ := env
  simp only [processSellTrade, stageFailed] at *
  rw [hh]
  simp only [hg]
  revert hf
  cases hq : qo (sellQuoteRequest cfg trade.tokenMint holding.amountLamports) <;>
    cases sb <;> cases so <;> cases hex : cfg.executeTrades <;>
    cases er <;> cases sim <;>
    simp [RunOutcome.isFailure, hq, hex]

theorem processSellTrade_sim (cfg : ExecConfig) (env : PipelineEnv)
    (st : HoldingsMap) (trade : DetectedTrade)
    (hex : cfg.executeTrades = false) :
    (processSellTrade cfg env st trade).holdings = st ∧
    (processSellTrade cfg env st trade).storeOps = [] ∧
    ∀ s, (processSellTrade cfg env st trade).outcome ≠ .committed s := by
  obtain ⟨qo, sb, so, er, sim⟩ := env
  simp only [processSellTrade]
  cases hh : jsMapGet st trade.tokenMint with
  | none => simp
  | some holding =>
      cases hg : (cfg.manageWithSltp && holding.avgPurchasePriceInSol.isSome) <;>
        cases hq : qo (sellQuoteRequest cfg trade.tokenMint holding.amountLamports) <;>
        cases sb <;> cases so <;> cases er <;> cases sim <;>
        simp [hq, hex, hg]

theorem executeSlTpSell_frame (cfg : ExecConfig) (env : PipelineEnv)
    (st : HoldingsMap) (mint : String) (holding : BotHolding)
    (reason : ExitReason) :
    (executeSlTpSell cfg env st mint holding reason).outcome.isFailure = true →
    (executeSlTpSell cfg env st mint holding reason).holdings = st ∧
    (executeSlTpSell cfg env st mint holding reason).storeOps = [] := by
  obtain ⟨qo, sb, so, er, sim⟩ := env
  simp only [executeSlTpSell]
  cases hq : qo (sellQuoteRequest cfg mint holding.amountLamports) <;>
    cases sb <;> cases so <;> cases hex : cfg.executeTrades <;>
    cases er <;> cases sim <;>
    simp [RunOutcome.isFailure, hq, hex]

theorem executeSlTpSell_stageFailed (cfg : ExecConfig) (env : PipelineEnv)
    (st : HoldingsMap) (mint : String) (holding : BotHolding)
    (reason : ExitReason)
    (hf : stageFailed cfg env (sellQuoteRequest cfg mint holding.amountLamports) = true) :
    (executeSlTpSell cfg env st mint holding reason).outcome.isFailure = true := by
  obtain ⟨qo, sb, so, er, sim⟩ := env
  simp only [executeSlTpSell, stageFailed] at *
  revert hf
  cases hq : qo (sellQuoteRequest cfg mint holding.amountLamports) <;>
    cases sb <;> cases so <;> cases hex : cfg.executeTrades <;>
    cases er <;> cases sim <;>
    simp [RunOutcome.isFailure, hq, hex]

theorem executeSlTpSell_sim (cfg : ExecConfig) (env : PipelineEnv)
    (st : HoldingsMap) (mint : String) (holding : BotHolding)
    (reason : ExitReason) (hex : cfg.executeTrades = false) :
    (executeSlTpSell cfg env st mint holding reason).holdings = st ∧
    (executeSlTpSell cfg env st mint holding reason).storeOps = [] ∧
    ∀ s, (executeSlTpSell cfg env st mint holding reason).outcome ≠ .committed s := by
  obtain ⟨qo, sb, so, er, sim⟩ := env
  simp only [executeSlTpSell]
  cases hq : qo (sellQuoteRequest cfg mint holding.amountLamports) <;>
    cases sb <;> cases so <;> cases er <;> cases sim <;>
    simp [hq, hex]

theorem processTrade_frame (cfg : ExecConfig) (env : PipelineEnv)
    (st : HoldingsMap) (trade : DetectedTrade) :
    (processTrade cfg env st trade).outcome.isFailure = true →
    (processTrade cfg env st trade).holdings = st ∧
    (processTrade cfg env st trade).storeOps = [] := by
  cases ht : trade.type with
  | buy =>
      simp only [processTrade, ht]
      exact processBuyTrade_frame cfg env st trade
  | sell =>
      simp only [processTrade, ht]
      cases hm : cfg.manageWithSltp with
      | false =>
          simp only [Bool.false_eq_true, if_false]
          exact processSellTrade_frame cfg env st trade
      | true =>
          simp only [if_true]
          cases hh : jsMapGet st trade.tokenMint with
          | none => exact processSellTrade_frame cfg env st trade
          | some h =>
              cases hg : (h.avgPurchasePriceInSol.isSome && h.tokenDecimals.isSome) with
              | false =>
                  simp only [hg, Bool.false_eq_true, if_false]
                  exact processSellTrade_frame cfg env st trade
              | true =>
                  simp [hg, RunOutcome.isFailure]

theorem processTrade_sim (cfg : ExecConfig) (env : PipelineEnv)
    (st : HoldingsMap) (trade : DetectedTrade)
    (hex : cfg.executeTrades = false) :
    (processTrade cfg env st trade).holdings = st ∧
    (processTrade cfg env st trade).storeOps = [] ∧
    ∀ s, (processTrade cfg env st trade).outcome ≠ .committed s := by
  cases ht : trade.type with
  | buy =>
      simp only [processTrade, ht]
      exact processBuyTrade_sim cfg env st trade hex
  | sell =>
      simp only [processTrade, ht]
      cases hm : cfg.manageWithSltp with
      | false =>
          simp only [Bool.false_eq_true, if_false]
          exact processSellTrade_sim cfg env st trade hex
      | true =>
          simp only [if_true]
          cases hh : jsMapGet st trade.tokenMint with
          | none => exact processSellTrade_sim cfg env st trade hex
          | some h =>
              cases hg : (h.avgPurchasePriceInSol.isSome && h.tokenDecimals.isSome) with
              | false =>
                  simp only [hg, Bool.false_eq_true, if_false]
                  exact processSellTrade_sim cfg env st trade hex
              | true => simp [hg]

theorem solThreshold_pos : 0 < solThreshold := by norm_num [solThreshold]

theorem tokenDustThreshold_pos : 0 < tokenDustThreshold := by
  norm_num [tokenDustThreshold]

/-- Everything `findTradeLoop` guarantees about a trade it returns:
the amounts are the magnitudes of the corresponding deltas, the token
delta is above dust level, the label is the one passed in, and the
direction matches the sign pairing. -/
theorem findTradeLoop_spec (meta : String → TokenInfo) (tx : ParsedTx)
    (wallet : String) (sol : ℚ) (symbol sig : String) (l : List String) :
    ∀ t : DetectedTrade,
      findTradeLoop meta tx wallet sol symbol sig l = some t →
      t.tokenAmount = |tokenChange tx wallet t.tokenMint| ∧
      t.currencyAmount = |sol| ∧
      |tokenChange tx wallet t.tokenMint| > tokenDustThreshold ∧
      t.currencySymbol = symbol ∧
      (t.type = .buy ↔
        tokenChange tx wallet t.tokenMint > 0 ∧ sol < -solThreshold) ∧
      (t.type = .sell ↔
        tokenChange tx wallet t.tokenMint < 0 ∧ sol > solThreshold) := by
  induction l with
  | nil => intro t h; simp [findTradeLoop] at h
  | cons mint rest ih =>
      intro t h
      rw [findTradeLoop] at h
      by_cases hw : mint = WSOL_MINT
      · rw [if_pos hw] at h
        exact ih t h
      · rw [if_neg hw] at h
        by_cases hd : |tokenChange tx wallet mint| > tokenDustThreshold
        · rw [if_pos hd] at h
          by_cases hb : tokenChange tx wallet mint > 0 ∧ sol < -solThreshold
          · rw [if_pos hb] at h
            obtain rfl : _ = t := Option.some.inj h
            refine ⟨rfl, rfl, hd, rfl, by simp [hb], ?_⟩
            constructor
            · intro hcontra; cases hcontra
            · rintro ⟨-, hs⟩
              exfalso
              have := solThreshold_pos
              linarith [hb.2]
          · rw [if_neg hb] at h
            by_cases hs : tokenChange tx wallet mint < 0 ∧ sol > solThreshold
            · rw [if_pos hs] at h
              obtain rfl : _ = t := Option.some.inj h
              refine ⟨rfl, rfl, hd, rfl, ?_, by simp [hs]⟩
              constructor
              · intro hcontra; cases hcontra
              · rintro ⟨ht, hneg⟩
                exfalso
                have := solThreshold_pos
                linarith [hs.2]
            · rw [if_neg hs] at h
              exact ih t h
        · rw [if_neg hd] at h
          exact ih t h

/-- Claim C2: every `DetectedTrade` produced by `analyzeTrade` has
strictly positive `tokenAmount` and `currencyAmount`, and its type is
`buy` exactly when the watched account's token delta for the returned
mint was strictly positive while the chosen SOL/WSOL delta was
strictly below the negated dust threshold, and `sell` exactly in the
symmetric case; any other sign combination is never returned. -/
theorem analyzeTrade_sign_invariant (tx : ParsedTx) (wallet : String)
    (meta : String → TokenInfo) (t : DetectedTrade)
    (h : analyzeTrade tx wallet meta = some t) :
    t.tokenAmount > 0 ∧ t.currencyAmount > 0 ∧
    (t.type = .buy ↔
      tokenChange tx wallet t.tokenMint > 0 ∧
      solChangeToUse tx wallet < -solThreshold) ∧
    (t.type = .sell ↔
      tokenChange tx wallet t.tokenMint < 0 ∧
      solChangeToUse tx wallet > solThreshold) := by
  rw [analyzeTrade] at h
  by_cases hm : txHasRequiredMeta tx
  · rw [if_pos hm] at h
    by_cases hs : |solChangeToUse tx wallet| < solThreshold
    · rw [if_pos hs] at h; cases h
    · rw [if_neg hs] at h
      obtain ⟨h1, h2, h3, h4, h5, h6⟩ :=
        findTradeLoop_spec meta tx wallet (solChangeToUse tx wallet)
          (solSymbolToUse tx wallet) (tx.signature.getD "")
          (allMints tx wallet) t h
      refine ⟨?_, ?_, h5, h6⟩
      · rw [h1]
        exact lt_trans tokenDustThreshold_pos h3
      · rw [h2]
        have hth := solThreshold_pos
        have hge : solThreshold ≤ |solChangeToUse tx wallet| := not_lt.mp hs
        linarith
  · rw [if_neg hm] at h; cases h

/-- Claim C7: the classifier uses the native SOL delta and the label
"SOL" when the native delta's magnitude exceeds the dust threshold,
otherwise the WSOL token delta and the label "WSOL"; when the chosen
delta is below the dust threshold the analysis returns none; and any
returned trade carries the chosen label and the chosen delta's
magnitude. -/
theorem analyzeTrade_base_asset_selection (tx : ParsedTx)
    (wallet : String) (meta : String → TokenInfo) :
    (|nativeSolChange tx wallet| > solThreshold →
      solChangeToUse tx wallet = nativeSolChange tx wallet ∧
      solSymbolToUse tx wallet = "SOL") ∧
    (¬ |nativeSolChange tx wallet| > solThreshold →
      solChangeToUse tx wallet = wsolTokenChange tx wallet ∧
      solSymbolToUse tx wallet = "WSOL") ∧
    (|solChangeToUse tx wallet| < solThreshold →
      analyzeTrade tx wallet meta = none) ∧
    (∀ t, analyzeTrade tx wallet meta = some t →
      t.currencySymbol = solSymbolToUse tx wallet ∧
      t.currencyAmount = |solChangeToUse tx wallet|) := by
  refine ⟨?_, ?_, ?_, ?_⟩
  · intro hgt
    exact ⟨by rw [solChangeToUse, if_pos hgt],
      by rw [solSymbolToUse, if_pos hgt]⟩
  · intro hle
    exact ⟨by rw [solChangeToUse, if_neg hle],
      by rw [solSymbolToUse, if_neg hle]⟩
  · intro hsmall
    rw [analyzeTrade]
    by_cases hm : txHasRequiredMeta tx
    · rw [if_pos hm, if_pos hsmall]
    · rw [if_neg hm]
  · intro t h
    rw [analyzeTrade] at h
    by_cases hm : txHasRequiredMeta tx
    · rw [if_pos hm] at h
      by_cases hs : |solChangeToUse tx wallet| < solThreshold
      · rw [if_pos hs] at h; cases h
      · rw [if_neg hs] at h
        obtain ⟨-, h2, -, h4, -, -⟩ :=
          findTradeLoop_spec meta tx wallet (solChangeToUse tx wallet)
            (solSymbolToUse tx wallet) (tx.signature.getD "")
            (allMints tx wallet) t h
        exact ⟨h4, h2⟩
    · rw [if_neg hm] at h; cases h

/-! ## Concrete classifier run used by the witnesses: the watched
wallet spends 1 SOL and receives 100 tokens. -/

def wWallet : String := "MonitoredWallet111"
def wMintTok : String := "TokenMint111"
def wSig : String := "TxSig111"

def wMeta : String → TokenInfo :=
  fun _ => { symbol := "TOK", name := "Token", decimals := 6 }

def wTx : ParsedTx :=
  { signature := some wSig
    preTokenBalances := some [{ owner := wWallet, mint := wMintTok, uiAmount := some 0 }]
    postTokenBalances := some [{ owner := wWallet, mint := wMintTok, uiAmount := some 100 }]
    preBalances := some [2000000000]
    postBalances := some [1000000000]
    accountKeys := some [wWallet] }

def wTrade : DetectedTrade :=
  { type := .buy
    tokenInfo := { symbol := "TOK", name := "Token", decimals := 6 }
    tokenMint := wMintTok
    currencyMint := WSOL_MINT
    currencySymbol := "SOL"
    tokenAmount := 100
    currencyAmount := 1
    originalTxSignature := wSig
    monitoredWallet := wWallet }

theorem wNative : nativeSolChange wTx wWallet = -1 := by
  norm_num [nativeSolChange, wTx, LAMPORTS_PER_SOL, List.findIdx?]

theorem wNativeGt : |nativeSolChange wTx wWallet| > solThreshold := by
  rw [wNative]
  norm_num [solThreshold]

theorem wSolChange : solChangeToUse wTx wWallet = -1 := by
  rw [solChangeToUse, wNative, if_pos]
  norm_num [solThreshold]

theorem wSolSymbol : solSymbolToUse wTx wWallet = "SOL" := by
  rw [solSymbolToUse, wNative, if_pos]
  norm_num [solThreshold]

theorem wAllMints : allMints wTx wWallet = [wMintTok] := by decide

theorem wTokChange : tokenChange wTx wWallet wMintTok = 100 := by
  norm_num [tokenChange, postTokenMap, preTokenMap, tokenBalanceMap,
    mapUiAmount, jsMapSet, jsMapGet, wTx, wWallet, wMintTok, WSOL_MINT]

theorem wTxEval : analyzeTrade wTx wWallet wMeta = some wTrade := by
  have hmeta : txHasRequiredMeta wTx = true := by decide
  simp only [analyzeTrade, hmeta, if_true, wAllMints, findTradeLoop,
    wSolChange, wSolSymbol, wTokChange]
  norm_num [solThreshold, tokenDustThreshold, WSOL_MINT, wMintTok, wTrade,
    wMeta, wSig, wWallet, wTx]
  intro h
  exact absurd h (by decide)

/-- Witness for claim C2 at the concrete transaction above. -/
theorem analyzeTrade_sign_invariant_witness :
    analyzeTrade wTx wWallet wMeta = some wTrade ∧
    (wTrade.tokenAmount > 0 ∧ wTrade.currencyAmount > 0 ∧
      (wTrade.type = .buy ↔
        tokenChange wTx wWallet wTrade.tokenMint > 0 ∧
        solChangeToUse wTx wWallet < -solThreshold) ∧
      (wTrade.type = .sell ↔
        tokenChange wTx wWallet wTrade.tokenMint < 0 ∧
        solChangeToUse wTx wWallet > solThreshold)) :=
  ⟨wTxEval, analyzeTrade_sign_invariant wTx wWallet wMeta wTrade wTxEval⟩

/-- Witness for claim C7 at the concrete transaction above. -/
theorem analyzeTrade_base_asset_selection_witness :
    |nativeSolChange wTx wWallet| > solThreshold ∧
    (solChangeToUse wTx wWallet = nativeSolChange wTx wWallet ∧
      solSymbolToUse wTx wWallet = "SOL") ∧
    (wTrade.currencySymbol = solSymbolToUse wTx wWallet ∧
      wTrade.currencyAmount = |solChangeToUse wTx wWallet|) :=
  ⟨wNativeGt,
    (analyzeTrade_base_asset_selection wTx wWallet wMeta).1 wNativeGt,
    (analyzeTrade_base_asset_selection wTx wWallet wMeta).2.2.2 wTrade wTxEval⟩

/-- Claim C1: in every orchestrator pipeline run (buy, copy-sell or
SL/TP risk exit), a failed run leaves the holdings map exactly as it
was and requests no store mutation, and every stage failure (quote
unavailable, build unavailable, signing error, submit/confirmation
error, simulation error) makes the run fail. -/
theorem pipeline_stage_failure_frame (cfg : ExecConfig)
    (env : PipelineEnv) (st : HoldingsMap) (trade : DetectedTrade)
    (mint : String) (holding : BotHolding) (reason : ExitReason) :
    ((processTrade cfg env st trade).outcome.isFailure = true →
      (processTrade cfg env st trade).holdings = st ∧
      (processTrade cfg env st trade).storeOps = []) ∧
    ((executeSlTpSell cfg env st mint holding reason).outcome.isFailure = true →
      (executeSlTpSell cfg env st mint holding reason).holdings = st ∧
      (executeSlTpSell cfg env st mint holding reason).storeOps = []) ∧
    (trade.type = .buy →
      stageFailed cfg env (buyQuoteRequest cfg trade) = true →
      (processTrade cfg env st trade).outcome.isFailure = true) ∧
    (∀ h0 : BotHolding, trade.type = .sell →
      jsMapGet st trade.tokenMint = some h0 →
      (cfg.manageWithSltp && h0.avgPurchasePriceInSol.isSome) = false →
      stageFailed cfg env
        (sellQuoteRequest cfg trade.tokenMint h0.amountLamports) = true →
      (processTrade cfg env st trade).outcome.isFailure = true) ∧
    (stageFailed cfg env
        (sellQuoteRequest cfg mint holding.amountLamports) = true →
      (executeSlTpSell cfg env st mint holding reason).outcome.isFailure = true) := by
  refine ⟨processTrade_frame cfg env st trade,
    executeSlTpSell_frame cfg env st mint holding reason, ?_, ?_,
    executeSlTpSell_stageFailed cfg env st mint holding reason⟩
  · intro ht hf
    simp only [processTrade, ht]
    exact processBuyTrade_stageFailed cfg env st trade hf
  · intro h0 ht hh hg hf
    simp only [processTrade, ht]
    cases hm : cfg.manageWithSltp with
    | false =>
        simp only [Bool.false_eq_true, if_false]
        exact processSellTrade_stageFailed cfg env st trade h0 hh hg hf
    | true =>
        simp only [if_true, hh]
        have ha : h0.avgPurchasePriceInSol.isSome = false := by
          simpa [hm] using hg
        simp only [ha, Bool.false_and, Bool.false_eq_true, if_false]
        exact processSellTrade_stageFailed cfg env st trade h0 hh hg hf

/-- Claim C5: with trade execution disabled the pipeline never
mutates the position store — no add and no remove is requested and
the holdings map is unchanged whatever the simulation outcome — and
the run never reaches a committed (submitted and confirmed) state;
when the stages before execution succeed, the buy pipeline ends in
the dry-run simulation outcome. -/
theorem simulation_mode_never_mutates_store (cfg : ExecConfig)
    (env : PipelineEnv) (st : HoldingsMap) (trade : DetectedTrade)
    (mint : String) (holding : BotHolding) (reason : ExitReason)
    (hex : cfg.executeTrades = false) :
    ((processTrade cfg env st trade).holdings = st ∧
      (processTrade cfg env st trade).storeOps = []) ∧
    ((executeSlTpSell cfg env st mint holding reason).holdings = st ∧
      (executeSlTpSell cfg env st mint holding reason).storeOps = []) ∧
    (∀ s, (processTrade cfg env st trade).outcome ≠ .committed s) ∧
    (∀ s, (executeSlTpSell cfg env st mint holding reason).outcome ≠ .committed s) ∧
    ((env.quoteOracle (buyQuoteRequest cfg trade)).isSome = true →
      env.swapBuildOk = true → env.signOk = true →
      (processBuyTrade cfg env st trade).outcome =
        if env.simOk then .simulatedOk else .simFailed) := by
  obtain ⟨hp1, hp2, hp3⟩ := processTrade_sim cfg env st trade hex
  obtain ⟨hs1, hs2, hs3⟩ := executeSlTpSell_sim cfg env st mint holding reason hex
  refine ⟨⟨hp1, hp2⟩, ⟨hs1, hs2⟩, hp3, hs3, ?_⟩
  intro hq hb hsign
  cases hqq : env.quoteOracle (buyQuoteRequest cfg trade) with
  | none => rw [hqq] at hq; cases hq
  | some q =>
      cases hsim : env.simOk <;>
        simp [processBuyTrade, hqq, hb, hsign, hex, hsim]

/-! ### Concrete pipeline runs used by the executor witnesses -/

def wHolding : BotHolding :=
  { amountLamports := 5000000
    buyTxSignature := wSig
    monitoredWallet := wWallet
    avgPurchasePriceInSol := none
    tokenDecimals := none
    totalSolSpentLamports := none }

def wCfgReal : ExecConfig :=
  { tradeAmountLamports := 10000000
    slippageBps := 50
    executeTrades := true
    manageWithSltp := false }

def wCfgSim : ExecConfig :=
  { tradeAmountLamports := 10000000
    slippageBps := 50
    executeTrades := false
    manageWithSltp := false }

/-- An environment whose quote endpoint is down. -/
def wEnvQuoteDown : PipelineEnv :=
  { quoteOracle := fun _ => none
    swapBuildOk := true
    signOk := true
    execResult := none
    simOk := true }

/-- An environment where every stage succeeds. -/
def wEnvAllOk : PipelineEnv :=
  { quoteOracle := fun _ => some { inAmount := 10000000, outAmount := 2000000 }
    swapBuildOk := true
    signOk := true
    execResult := some wSig
    simOk := true }

theorem wQuoteDownFails :
    stageFailed wCfgReal wEnvQuoteDown (buyQuoteRequest wCfgReal wTrade) = true := by
  rfl

theorem wBuyQuoteDownIsFailure :
    (processTrade wCfgReal wEnvQuoteDown [] wTrade).outcome.isFailure = true := by
  rfl

/-- Witness for claim C1: a quote outage during a buy makes the run
fail and leaves an empty store empty. -/
theorem pipeline_stage_failure_frame_witness :
    (wTrade.type = .buy ∧
      stageFailed wCfgReal wEnvQuoteDown (buyQuoteRequest wCfgReal wTrade) = true ∧
      (processTrade wCfgReal wEnvQuoteDown [] wTrade).outcome.isFailure = true) ∧
    ((processTrade wCfgReal wEnvQuoteDown [] wTrade).holdings = [] ∧
      (processTrade wCfgReal wEnvQuoteDown [] wTrade).storeOps = []) :=
  ⟨⟨rfl, wQuoteDownFails,
      (pipeline_stage_failure_frame wCfgReal wEnvQuoteDown [] wTrade
        wMintTok wHolding ExitReason.TP).2.2.1 rfl wQuoteDownFails⟩,
    (pipeline_stage_failure_frame wCfgReal wEnvQuoteDown [] wTrade
      wMintTok wHolding ExitReason.TP).1 wBuyQuoteDownIsFailure⟩

/-- Witness for claim C5: with execution disabled and every stage
healthy, the buy pipeline simulates and does not touch the store. -/
theorem simulation_mode_never_mutates_store_witness :
    wCfgSim.executeTrades = false ∧
    ((processTrade wCfgSim wEnvAllOk [] wTrade).holdings = [] ∧
      (processTrade wCfgSim wEnvAllOk [] wTrade).storeOps = []) ∧
    (processBuyTrade wCfgSim wEnvAllOk [] wTrade).outcome =
      (if wEnvAllOk.simOk then .simulatedOk else .simFailed) :=
  ⟨rfl,
    (simulation_mode_never_mutates_store wCfgSim wEnvAllOk [] wTrade
      wMintTok wHolding ExitReason.SL rfl).1,
    (simulation_mode_never_mutates_store wCfgSim wEnvAllOk [] wTrade
      wMintTok wHolding ExitReason.SL rfl).2.2.2.2 rfl rfl rfl⟩

theorem processTrade_sell_noHolding (cfg : ExecConfig) (env : PipelineEnv)
    (st : HoldingsMap) (trade : DetectedTrade)
    (ht : trade.type = .sell) (hh : jsMapGet st trade.tokenMint = none) :
    processTrade cfg env st trade =
      { outcome := .ignoredNoHolding, holdings := st,
        quoteReqs := [], storeOps := [] } := by
  simp only [processTrade, ht]
  cases hm : cfg.manageWithSltp <;> simp [processSellTrade, hh]

theorem processSellTrade_suppressed (cfg : ExecConfig) (env : PipelineEnv)
    (st : HoldingsMap) (trade : DetectedTrade) (h0 : BotHolding)
    (hm : cfg.manageWithSltp = true)
    (hh : jsMapGet st trade.tokenMint = some h0)
    (ha : h0.avgPurchasePriceInSol.isSome = true) :
    processSellTrade cfg env st trade =
      { outcome := .ignoredSltpManaged, holdings := st,
        quoteReqs := [], storeOps := [] } := by
  simp [processSellTrade, hh, hm, ha]

theorem processTrade_sell_suppressed (cfg : ExecConfig) (env : PipelineEnv)
    (st : HoldingsMap) (trade : DetectedTrade) (h0 : BotHolding)
    (ht : trade.type = .sell) (hm : cfg.manageWithSltp = true)
    (hh : jsMapGet st trade.tokenMint = some h0)
    (ha : h0.avgPurchasePriceInSol.isSome = true) :
    processTrade cfg env st trade =
      { outcome := .ignoredSltpManaged, holdings := st,
        quoteReqs := [], storeOps := [] } := by
  simp only [processTrade, ht, hm, if_true, hh]
  cases hd : h0.tokenDecimals.isSome with
  | true => simp [ha, hd]
  | false =>
      simp [ha, hd,
        processSellTrade_suppressed cfg env st trade h0 hm hh ha]

theorem processSellTrade_committed (cfg : ExecConfig) (env : PipelineEnv)
    (st : HoldingsMap) (trade : DetectedTrade) (sig : String)
    (h : (processSellTrade cfg env st trade).outcome = .committed sig) :
    (processSellTrade cfg env st trade).holdings =
      removeHolding st trade.tokenMint := by
  obtain ⟨qo, sb, so, er, sim⟩ := env
  simp only [processSellTrade] at *
  revert h
  cases hh : jsMapGet st trade.tokenMint with
  | none => simp
  | some holding =>
      cases hg : (cfg.manageWithSltp && holding.avgPurchasePriceInSol.isSome) <;>
        cases hq : qo (sellQuoteRequest cfg trade.tokenMint holding.amountLamports) <;>
        cases sb <;> cases so <;> cases hex : cfg.executeTrades <;>
        cases er <;> cases sim <;>
        simp [hq, hex, hg]

theorem removeHolding_self (m : HoldingsMap) (k : String) :
    jsMapGet (removeHolding m k) k = none :=
  jsMapGet_delete_self m k

/-- Claim C3: a copy-sell with no recorded position is ignored
without requesting a quote and without touching the store (so a
fully-confirmed sell fed a second time observes no position and
no-ops), and in risk-managed mode a copy-sell for a position that
carries an entry price is suppressed by `processSellTrade`'s own
safeguard, and hence also by `processTrade`, independently of any
caller-side filtering. -/
theorem copy_sell_requires_position_and_respects_sltp
    (cfg : ExecConfig) (env env2 : PipelineEnv) (st : HoldingsMap)
    (trade : DetectedTrade) (h0 : BotHolding) (sig : String)
    (ht : trade.type = .sell) :
    (jsMapGet st trade.tokenMint = none →
      processTrade cfg env st trade =
        { outcome := .ignoredNoHolding, holdings := st,
          quoteReqs := [], storeOps := [] }) ∧
    (cfg.manageWithSltp = true →
      jsMapGet st trade.tokenMint = some h0 →
      h0.avgPurchasePriceInSol.isSome = true →
      processSellTrade cfg env st trade =
        { outcome := .ignoredSltpManaged, holdings := st,
          quoteReqs := [], storeOps := [] } ∧
      processTrade cfg env st trade =
        { outcome := .ignoredSltpManaged, holdings := st,
          quoteReqs := [], storeOps := [] }) ∧
    ((processSellTrade cfg env st trade).outcome = .committed sig →
      jsMapGet (processSellTrade cfg env st trade).holdings trade.tokenMint = none ∧
      processTrade cfg env2 (processSellTrade cfg env st trade).holdings trade =
        { outcome := .ignoredNoHolding
          holdings := (processSellTrade cfg env st trade).holdings
          quoteReqs := [], storeOps := [] }) := by
  refine ⟨fun hh => processTrade_sell_noHolding cfg env st trade ht hh,
    fun hm hh ha =>
      ⟨processSellTrade_suppressed cfg env st trade h0 hm hh ha,
        processTrade_sell_suppressed cfg env st trade h0 ht hm hh ha⟩,
    fun hc => ?_⟩
  have hdel := processSellTrade_committed cfg env st trade sig hc
  have hnone :
      jsMapGet (processSellTrade cfg env st trade).holdings trade.tokenMint = none := by
    rw [hdel]
    exact removeHolding_self st trade.tokenMint
  exact ⟨hnone,
    processTrade_sell_noHolding cfg env2 _ trade ht hnone⟩

def wTradeSell : DetectedTrade :=
  { wTrade with type := .sell }

/-- Witness for claim C3: a copy-sell against an empty store. -/
theorem copy_sell_requires_position_witness :
    wTradeSell.type = .sell ∧
    jsMapGet ([] : HoldingsMap) wTradeSell.tokenMint = none ∧
    processTrade wCfgReal wEnvAllOk [] wTradeSell =
      { outcome := .ignoredNoHolding, holdings := [],
        quoteReqs := [], storeOps := [] } :=
  ⟨rfl, rfl,
    (copy_sell_requires_position_and_respects_sltp wCfgReal wEnvAllOk
      wEnvQuoteDown [] wTradeSell wHolding wSig rfl).1 rfl⟩

/-- Claim C6: the buy pipeline always issues exactly one quote
request, for WSOL into the detected token sized at the configured
lamport amount — independent of the source wallet's trade size — and
a confirmed real execution commits the buy fill with the quote's
`outAmount` and `inAmount`. -/
theorem buy_uses_fixed_amount_and_quote_fills (cfg : ExecConfig)
    (env : PipelineEnv) (st : HoldingsMap) (trade trade2 : DetectedTrade)
    (q : QuoteResponse) (sig : String) :
    (processBuyTrade cfg env st trade).quoteReqs = [buyQuoteRequest cfg trade] ∧
    (buyQuoteRequest cfg trade).inputMint = WSOL_MINT ∧
    (buyQuoteRequest cfg trade).outputMint = trade.tokenMint ∧
    (buyQuoteRequest cfg trade).amount = cfg.tradeAmountLamports ∧
    (trade2.tokenMint = trade.tokenMint →
      buyQuoteRequest cfg trade2 = buyQuoteRequest cfg trade) ∧
    (cfg.executeTrades = true →
      env.quoteOracle (buyQuoteRequest cfg trade) = some q →
      env.swapBuildOk = true → env.signOk = true →
      env.execResult = some sig →
      (processBuyTrade cfg env st trade).outcome = .committed sig ∧
      (processBuyTrade cfg env st trade).storeOps =
        [StoreOp.add trade.tokenMint q.outAmount q.inAmount sig
          trade.monitoredWallet trade.tokenInfo.decimals cfg.manageWithSltp] ∧
      (processBuyTrade cfg env st trade).holdings =
        addOrUpdateHolding st trade.tokenMint q.outAmount q.inAmount sig
          trade.monitoredWallet trade.tokenInfo.decimals cfg.manageWithSltp) := by
  refine ⟨?_, rfl, rfl, rfl, fun hmint => by simp [buyQuoteRequest, hmint], ?_⟩
  · obtain ⟨qo, sb, so, er, sim⟩ := env
    simp only [processBuyTrade]
    cases hq : qo (buyQuoteRequest cfg trade) <;>
      cases sb <;> cases so <;> cases hex : cfg.executeTrades <;>
      cases er <;> cases sim <;>
      simp [hq, hex]
  · intro hex hq hb hs her
    simp [processBuyTrade, hq, hb, hs, hex, her, applyStoreOp]

def wQuote : QuoteResponse := { inAmount := 10000000, outAmount := 2000000 }

/-- Witness for claim C6: a confirmed buy in the all-healthy
environment commits with the quote's amounts. -/
theorem buy_uses_fixed_amount_witness :
    wCfgReal.executeTrades = true ∧
    wEnvAllOk.quoteOracle (buyQuoteRequest wCfgReal wTrade) = some wQuote ∧
    (processBuyTrade wCfgReal wEnvAllOk [] wTrade).outcome = .committed wSig ∧
    (processBuyTrade wCfgReal wEnvAllOk [] wTrade).storeOps =
      [StoreOp.add wTrade.tokenMint wQuote.outAmount wQuote.inAmount wSig
        wTrade.monitoredWallet wTrade.tokenInfo.decimals wCfgReal.manageWithSltp] :=
  ⟨rfl, rfl,
    ((buy_uses_fixed_amount_and_quote_fills wCfgReal wEnvAllOk [] wTrade
        wTrade wQuote wSig).2.2.2.2.2 rfl rfl rfl rfl rfl).1,
    ((buy_uses_fixed_amount_and_quote_fills wCfgReal wEnvAllOk [] wTrade
        wTrade wQuote wSig).2.2.2.2.2 rfl rfl rfl rfl rfl).2.1⟩

theorem addOrUpdateHolding_get_none (st : HoldingsMap) (mint : String)
    (tok sol : ℤ) (sig w : String) (d : ℕ)
    (h : jsMapGet st mint = none) :
    jsMapGet (addOrUpdateHolding st mint tok sol sig w d true) mint =
      some
        { amountLamports := tok
          buyTxSignature := sig
          monitoredWallet := w
          avgPurchasePriceInSol := some (avgPriceInSol sol tok d)
          tokenDecimals := some d
          totalSolSpentLamports := some sol } := by
  rw [addOrUpdateHolding]
  simp [h, jsMapGet_set_self]

theorem addOrUpdateHolding_get_some (st : HoldingsMap) (mint : String)
    (prev : BotHolding) (tok sol : ℤ) (sig w : String) (d : ℕ)
    (h : jsMapGet st mint = some prev) :
    jsMapGet (addOrUpdateHolding st mint tok sol sig w d true) mint =
      some
        { amountLamports := prev.amountLamports + tok
          buyTxSignature := sig
          monitoredWallet := w
          avgPurchasePriceInSol :=
            some (avgPriceInSol (prev.totalSolSpentLamports.getD 0 + sol)
              (prev.amountLamports + tok) d)
          tokenDecimals := some d
          totalSolSpentLamports :=
            some (prev.totalSolSpentLamports.getD 0 + sol) } := by
  rw [addOrUpdateHolding]
  simp [h, jsMapGet_set_self]

/-- Claim C4: with risk-managed mode enabled, after a first buy fill
of display size `A = a / 10 ^ d` at per-unit price `X` and a second
of display size `B` at per-unit price `Y` for the same asset, the
stored average entry price is exactly the weighted mean
`(A * X + B * Y) / (A + B)` (exact rational arithmetic subsumes the
floating tolerance), the average being recomputed on each buy; a
sell only deletes its own position and never touches the average of
any other. -/
theorem weighted_average_entry_price (st : HoldingsMap)
    (mint sig1 sig2 w1 w2 : String) (d : ℕ) (a b c1 c2 : ℤ)
    (A B X Y : ℚ)
    (hnone : jsMapGet st mint = none)
    (ha : 0 < a) (hb : 0 < b)
    (hA : A = (a : ℚ) / 10 ^ d) (hB : B = (b : ℚ) / 10 ^ d)
    (hX : X = ((c1 : ℚ) / LAMPORTS_PER_SOL) / A)
    (hY : Y = ((c2 : ℚ) / LAMPORTS_PER_SOL) / B) :
    ((jsMapGet
        (addOrUpdateHolding (addOrUpdateHolding st mint a c1 sig1 w1 d true)
          mint b c2 sig2 w2 d true) mint).bind
        BotHolding.avgPurchasePriceInSol) =
      some ((A * X + B * Y) / (A + B)) ∧
    (∀ (m : HoldingsMap) (k k' : String), k ≠ k' →
      jsMapGet (removeHolding m k) k' = jsMapGet m k') := by
  constructor
  · have h1 := addOrUpdateHolding_get_none st mint a c1 sig1 w1 d hnone
    have h2 := addOrUpdateHolding_get_some
      (addOrUpdateHolding st mint a c1 sig1 w1 d true) mint _ b c2 sig2 w2 d h1
    have haQ : (a : ℚ) ≠ 0 := by
      exact_mod_cast ha.ne.symm
    have hbQ : (b : ℚ) ≠ 0 := by
      exact_mod_cast hb.ne.symm
    have hpow : (10 : ℚ) ^ d ≠ 0 := by positivity
    have hA0 : A ≠ 0 := by
      rw [hA]
      exact div_ne_zero haQ hpow
    have hB0 : B ≠ 0 := by
      rw [hB]
      exact div_ne_zero hbQ hpow
    have hAX : A * X = (c1 : ℚ) / LAMPORTS_PER_SOL := by
      rw [hX, mul_div_cancel₀ _ hA0]
    have hBY : B * Y = (c2 : ℚ) / LAMPORTS_PER_SOL := by
      rw [hY, mul_div_cancel₀ _ hB0]
    have hsum : A * X + B * Y = ((c1 : ℚ) + c2) / LAMPORTS_PER_SOL := by
      rw [hAX, hBY, div_add_div_same]
    have hden : A + B = ((a : ℚ) + b) / 10 ^ d := by
      rw [hA, hB, div_add_div_same]
    have hgoal : avgPriceInSol (c1 + c2) (a + b) d =
        (A * X + B * Y) / (A + B) := by
      rw [hsum, hden, avgPriceInSol]
      push_cast
      ring_nf
    rw [h2]
    simp [hgoal]
  · intro m k k' hk
    exact jsMapGet_delete_ne m k k' hk

/-- Witness for claim C4: fills of 2 units at 1 SOL each and 2 units
at 3 SOL each average to 2 SOL per unit. -/
theorem weighted_average_entry_price_witness :
    jsMapGet ([] : HoldingsMap) wMintTok = none ∧
    ((jsMapGet
        (addOrUpdateHolding
          (addOrUpdateHolding [] wMintTok 2 2000000000 wSig wWallet 0 true)
          wMintTok 2 6000000000 wSig wWallet 0 true) wMintTok).bind
        BotHolding.avgPurchasePriceInSol) =
      some (((2 : ℚ) * 1 + 2 * 3) / (2 + 2)) :=
  ⟨rfl,
    (weighted_average_entry_price [] wMintTok wSig wSig wWallet wWallet 0 2 2
      2000000000 6000000000 2 2 1 3 rfl (by decide) (by decide)
      (by norm_num) (by norm_num)
      (by norm_num [LAMPORTS_PER_SOL]) (by norm_num [LAMPORTS_PER_SOL])).1⟩

/-! ## Position monitor threshold claims -/

def wSltpCfg : SltpConfig :=
  { takeProfitPct := 20
    stopLossPct := 10
    slippageBps := 50 }

/-- The monitor's valuation quote for the scenario: 1.3 SOL out for
the full position. -/
def wSltpOracle : QuoteRequest → Option ℤ := fun _ => some 1300000000

def wSltpHolding : BotHolding :=
  { amountLamports := 100000000
    buyTxSignature := wSig
    monitoredWallet := wWallet
    avgPurchasePriceInSol := some (1 / 100)
    tokenDecimals := some 6
    totalSolSpentLamports := some 1000000 }

/-- Claim C8: on a monitor tick, a holding with entry price and
decimals is valued by quoting the entire held raw amount; the
per-unit price is the quoted base output over the held unit count;
take-profit fires exactly when that price reaches
`entry * (1 + tp / 100)`, checked before stop-loss, which fires
exactly when the price is at most `entry * (1 - sl / 100)`; and in
the concrete scenario (amountRaw 100000000, decimals 6, entry 0.01,
1.3 SOL quoted, tp 20%) the take-profit path fires. -/
theorem monitor_tp_checked_before_sl (cfg : SltpConfig)
    (oracle : QuoteRequest → Option ℤ) (mint : String)
    (holding : BotHolding) (avg : ℚ) (dec : ℕ) (out : ℤ)
    (havg : holding.avgPurchasePriceInSol = some avg)
    (hdec : holding.tokenDecimals = some dec)
    (hpos : 0 < holding.amountLamports)
    (hq : oracle (monitorQuoteRequest cfg mint holding.amountLamports) =
      some out) :
    (priceCheckHolding cfg oracle mint holding = .takeProfit ↔
      ((out : ℚ) / LAMPORTS_PER_SOL) /
          ((holding.amountLamports : ℚ) / 10 ^ dec) ≥
        avg * (1 + cfg.takeProfitPct / 100)) ∧
    (priceCheckHolding cfg oracle mint holding = .stopLoss ↔
      (((out : ℚ) / LAMPORTS_PER_SOL) /
          ((holding.amountLamports : ℚ) / 10 ^ dec) <
        avg * (1 + cfg.takeProfitPct / 100) ∧
       ((out : ℚ) / LAMPORTS_PER_SOL) /
          ((holding.amountLamports : ℚ) / 10 ^ dec) ≤
        avg * (1 - cfg.stopLossPct / 100))) ∧
    priceCheckHolding wSltpCfg wSltpOracle wMintTok wSltpHolding =
      .takeProfit := by
  have hnn : ¬ holding.amountLamports ≤ 0 := not_le.mpr hpos
  have htokpos : (0 : ℚ) < (holding.amountLamports : ℚ) / 10 ^ dec := by
    apply div_pos
    · exact_mod_cast hpos
    · positivity
  have htok : ¬ ((holding.amountLamports : ℚ) / 10 ^ dec ≤ 0) :=
    not_le.mpr htokpos
  refine ⟨?_, ?_, ?_⟩
  · simp only [priceCheckHolding, havg, hdec, if_neg hnn, hq, if_neg htok]
    by_cases htp : ((out : ℚ) / LAMPORTS_PER_SOL) /
        ((holding.amountLamports : ℚ) / 10 ^ dec) ≥
      avg * (1 + cfg.takeProfitPct / 100)
    · simp [htp]
    · by_cases hsl : ((out : ℚ) / LAMPORTS_PER_SOL) /
          ((holding.amountLamports : ℚ) / 10 ^ dec) ≤
        avg * (1 - cfg.stopLossPct / 100) <;>
        simp [htp, hsl]
  · simp only [priceCheckHolding, havg, hdec, if_neg hnn, hq, if_neg htok]
    by_cases htp : ((out : ℚ) / LAMPORTS_PER_SOL) /
        ((holding.amountLamports : ℚ) / 10 ^ dec) ≥
      avg * (1 + cfg.takeProfitPct / 100)
    · simp [htp, not_lt.mpr htp]
    · by_cases hsl : ((out : ℚ) / LAMPORTS_PER_SOL) /
          ((holding.amountLamports : ℚ) / 10 ^ dec) ≤
        avg * (1 - cfg.stopLossPct / 100) <;>
        simp [htp, hsl, not_le.mp htp]
  · have hamt : ¬ (wSltpHolding.amountLamports ≤ 0) := by decide
    simp only [priceCheckHolding, wSltpHolding, wSltpOracle, wSltpCfg]
    norm_num [LAMPORTS_PER_SOL]

/-- Witness for claim C8 at the scenario values. -/
theorem monitor_tp_checked_before_sl_witness :
    (0 : ℤ) < wSltpHolding.amountLamports ∧
    priceCheckHolding wSltpCfg wSltpOracle wMintTok wSltpHolding =
      .takeProfit :=
  ⟨by decide,
    (monitor_tp_checked_before_sl wSltpCfg wSltpOracle wMintTok wSltpHolding
      (1 / 100) 6 1300000000 rfl rfl (by decide) rfl).2.2⟩

/-! ## Persistence round trip -/

theorem parseBigInt_intToDecimalString (n : ℤ) :
    parseBigInt (intToDecimalString n) = some n := by
  have hd : ((Nat.digits 10 n.natAbs).all fun d => decide (d < 10)) = true := by
    rw [List.all_eq_true]
    intro d hdm
    exact decide_eq_true (Nat.digits_lt_base (by norm_num) hdm)
  rw [parseBigInt, intToDecimalString]
  simp only [hd, if_true]
  congr 1
  rw [Nat.ofDigits_digits]
  rcases lt_or_le n 0 with hn | hn
  · simp only [decide_eq_true hn, if_true, neg_one_mul]
    omega
  · simp only [decide_eq_false (not_lt.mpr hn), Bool.false_eq_true,
      if_false, one_mul]
    omega

theorem parseHoldingJson_save (h : BotHolding) :
    parseHoldingJson
      { amountLamports := intToDecimalString h.amountLamports
        buyTxSignature := h.buyTxSignature
        monitoredWallet := h.monitoredWallet } =
      some
        { amountLamports := h.amountLamports
          buyTxSignature := h.buyTxSignature
          monitoredWallet := h.monitoredWallet
          avgPurchasePriceInSol := none
          tokenDecimals := none
          totalSolSpentLamports := none } := by
  simp [parseHoldingJson, parseBigInt_intToDecimalString]

theorem loadHoldings_saveHoldings (m : HoldingsMap) :
    (loadHoldings (saveHoldings m)).map (fun p => (p.1, p.2.amountLamports)) =
      m.map (fun p => (p.1, p.2.amountLamports)) := by
  induction m with
  | nil => rfl
  | cons p rest ih =>
      simp only [saveHoldings, loadHoldings] at ih ⊢
      simp only [List.map_cons, List.filterMap_cons, parseHoldingJson_save,
        Option.map_some']
      rw [ih]

theorem loadHoldings_skips_malformed (pre post : List (String × BotHoldingJson))
    (k : String) (hj : BotHoldingJson)
    (hbad : parseBigInt hj.amountLamports = none) :
    loadHoldings (pre ++ (k, hj) :: post) = loadHoldings (pre ++ post) := by
  simp [loadHoldings, List.filterMap_append, List.filterMap_cons,
    parseHoldingJson, hbad]

/-- Claim C9: persisting and reloading reproduces every holding's
`amountLamports` bit-for-bit (the bigint goes through a decimal
string), and a malformed entry is skipped during load while the
remaining entries still load. -/
theorem position_store_round_trip (m : HoldingsMap)
    (pre post : List (String × BotHoldingJson)) (k : String)
    (hj : BotHoldingJson)
    (hbad : parseBigInt hj.amountLamports = none) :
    ((loadHoldings (saveHoldings m)).map (fun p => (p.1, p.2.amountLamports)) =
      m.map (fun p => (p.1, p.2.amountLamports))) ∧
    loadHoldings (pre ++ (k, hj) :: post) = loadHoldings (pre ++ post) :=
  ⟨loadHoldings_saveHoldings m,
    loadHoldings_skips_malformed pre post k hj hbad⟩

/-- A JSON entry whose stored amount carries a non-digit. -/
def wBadJson : BotHoldingJson :=
  { amountLamports := { neg := false, digits := [10] }
    buyTxSignature := wSig
    monitoredWallet := wWallet }

/-- Witness for claim C9: a one-entry store round-trips and the
malformed entry is dropped. -/
theorem position_store_round_trip_witness :
    parseBigInt wBadJson.amountLamports = none ∧
    ((loadHoldings (saveHoldings [(wMintTok, wHolding)])).map
        (fun p => (p.1, p.2.amountLamports)) =
      [(wMintTok, wHolding)].map (fun p => (p.1, p.2.amountLamports))) ∧
    loadHoldings ([] ++ (wMintTok, wBadJson) :: []) = loadHoldings ([] ++ []) :=
  ⟨rfl,
    (position_store_round_trip [(wMintTok, wHolding)] [] [] wMintTok
      wBadJson rfl).1,
    (position_store_round_trip [(wMintTok, wHolding)] [] [] wMintTok
      wBadJson rfl).2⟩

/-! ## Snapshot behaviour of getAllHoldings -/

theorem JsHeap.read_alloc_self (h : JsHeap) (m : HoldingsMap) :
    (h.alloc m).1.read (h.alloc m).2 = m := by
  simp [JsHeap.alloc, JsHeap.read, List.getD_eq_getElem?_getD,
    List.getElem?_append_right (le_refl h.store.length)]

theorem JsHeap.read_alloc_other (h : JsHeap) (m : HoldingsMap) (r : ℕ)
    (hr : r < h.store.length) :
    (h.alloc m).1.read r = h.read r := by
  simp [JsHeap.alloc, JsHeap.read, List.getD_eq_getElem?_getD,
    List.getElem?_append, hr]

theorem JsHeap.read_write_ne (h : JsHeap) (r r' : ℕ) (m : HoldingsMap)
    (hne : r ≠ r') :
    (h.write r m).read r' = h.read r' := by
  simp [JsHeap.write, JsHeap.read, List.getD_eq_getElem?_getD,
    List.getElem?_set_ne hne]

theorem applyMapOps_read_ne (ops : List MapOp) (h : JsHeap) (r r' : ℕ)
    (hne : r ≠ r') :
    (applyMapOps h r ops).read r' = h.read r' := by
  induction ops generalizing h with
  | nil => rfl
  | cons op rest ih =>
      have hstep : applyMapOps h r (op :: rest) =
          applyMapOps (applyMapOp h r op) r rest := rfl
      rw [hstep, ih]
      cases op <;> exact JsHeap.read_write_ne h r r' _ hne

/-- Claim C10: `getAllHoldings` hands back a freshly allocated copy
of the holdings map: the returned reference differs from the
manager's, its contents equal the manager's at the time of the call,
and any sequence of set/delete mutations applied through the
returned reference leaves the manager's own map — and hence what
`saveHoldings` persists — unchanged. -/
theorem getAllHoldings_returns_snapshot (heap : JsHeap) (mgr : ℕ)
    (ops : List MapOp) (hv : mgr < heap.store.length) :
    (getAllHoldings heap mgr).2 ≠ mgr ∧
    (getAllHoldings heap mgr).1.read (getAllHoldings heap mgr).2 =
      heap.read mgr ∧
    (applyMapOps (getAllHoldings heap mgr).1 (getAllHoldings heap mgr).2
        ops).read mgr = heap.read mgr ∧
    saveHoldings
        ((applyMapOps (getAllHoldings heap mgr).1 (getAllHoldings heap mgr).2
          ops).read mgr) =
      saveHoldings (heap.read mgr) := by
  have hne : (getAllHoldings heap mgr).2 ≠ mgr := Nat.ne_of_gt hv
  have hread :
      (applyMapOps (getAllHoldings heap mgr).1 (getAllHoldings heap mgr).2
        ops).read mgr = (getAllHoldings heap mgr).1.read mgr :=
    applyMapOps_read_ne ops _ _ mgr hne
  have halloc : (getAllHoldings heap mgr).1.read mgr = heap.read mgr :=
    JsHeap.read_alloc_other heap _ mgr hv
  refine ⟨hne, JsHeap.read_alloc_self heap _, ?_, ?_⟩
  · rw [hread, halloc]
  · rw [hread, halloc]

def wHeap : JsHeap := { store := [[(wMintTok, wHolding)]] }

/-- Witness for claim C10: deleting through the snapshot of a
one-cell heap leaves the manager's map intact. -/
theorem getAllHoldings_returns_snapshot_witness :
    0 < wHeap.store.length ∧
    (applyMapOps (getAllHoldings wHeap 0).1 (getAllHoldings wHeap 0).2
        [MapOp.del wMintTok]).read 0 = wHeap.read 0 :=
  ⟨by decide,
    (getAllHoldings_returns_snapshot wHeap 0 [MapOp.del wMintTok]
      (by decide)).2.2.1⟩

end Echo
